import Mathlib

/-!
Shallow embedding of the ZoomPhoneUserAssignments-RO repository.

The repository has three Python source files:
  * `app.py`    — the main script: `auth`, `do_get` (recursive paginated GET)
                  and the `__main__` driver that extracts phone-number maps
                  and writes five JSON files;
  * `api.py`    — an older variant of the same `auth` / `do_get` pair;
  * `config.py` — a settings class (data only, no behaviour).

Python dicts are modelled as association lists with insert-or-overwrite
semantics, JSON values as an inductive `JValue`, the network as an explicit
state (`Net`) holding the responses still to be served and the log of issued
requests, exceptions as `Except String`, and in-place mutation of the
caller dicts by threading the dict values through and returning them.
-/

/-- A decoded JSON value, as produced by `resp.json()`. -/
inductive JValue where
  | null : JValue
  | str (s : String) : JValue
  | num (n : Int) : JValue
  | obj (fields : List (String × JValue)) : JValue
  | arr (items : List JValue) : JValue

mutual
/-- Structural equality test on JSON values. -/
def jeq : JValue → JValue → Bool
  | .null, .null => true
  | .str a, .str b => a == b
  | .num a, .num b => a == b
  | .obj a, .obj b => jeqFields a b
  | .arr a, .arr b => jeqItems a b
  | _, _ => false

/-- Structural equality test on JSON object field lists. -/
def jeqFields : List (String × JValue) → List (String × JValue) → Bool
  | [], [] => true
  | (k1, v1) :: r1, (k2, v2) :: r2 => k1 == k2 && jeq v1 v2 && jeqFields r1 r2
  | _, _ => false

/-- Structural equality test on JSON array item lists. -/
def jeqItems : List JValue → List JValue → Bool
  | [], [] => true
  | v1 :: r1, v2 :: r2 => jeq v1 v2 && jeqItems r1 r2
  | _, _ => false
end

mutual
theorem jeq_refl : (v : JValue) → jeq v v = true
  | .null => rfl
  | .str s => by simp [jeq]
  | .num n => by simp [jeq]
  | .obj fields => by simp [jeq, jeqFields_refl fields]
  | .arr items => by simp [jeq, jeqItems_refl items]

theorem jeqFields_refl : (l : List (String × JValue)) → jeqFields l l = true
  | [] => rfl
  | (k, v) :: rest => by simp [jeqFields, jeq_refl v, jeqFields_refl rest]

theorem jeqItems_refl : (l : List JValue) → jeqItems l l = true
  | [] => rfl
  | v :: rest => by simp [jeqItems, jeq_refl v, jeqItems_refl rest]
end

mutual
theorem jeq_eq : (a b : JValue) → jeq a b = true → a = b
  | .null, .null, _ => rfl
  | .str _, .str _, h => by simpa [jeq] using congrArg JValue.str (by simpa [jeq] using h)
  | .num _, .num _, h => by simpa [jeq] using congrArg JValue.num (by simpa [jeq] using h)
  | .obj a, .obj b, h => congrArg JValue.obj (jeqFields_eq a b (by simpa [jeq] using h))
  | .arr a, .arr b, h => congrArg JValue.arr (jeqItems_eq a b (by simpa [jeq] using h))
  | .null, .str _, h | .null, .num _, h | .null, .obj _, h | .null, .arr _, h => by simp [jeq] at h
  | .str _, .null, h | .str _, .num _, h | .str _, .obj _, h | .str _, .arr _, h => by simp [jeq] at h
  | .num _, .null, h | .num _, .str _, h | .num _, .obj _, h | .num _, .arr _, h => by simp [jeq] at h
  | .obj _, .null, h | .obj _, .str _, h | .obj _, .num _, h | .obj _, .arr _, h => by simp [jeq] at h
  | .arr _, .null, h | .arr _, .str _, h | .arr _, .num _, h | .arr _, .obj _, h => by simp [jeq] at h

theorem jeqFields_eq : (a b : List (String × JValue)) → jeqFields a b = true → a = b
  | [], [], _ => rfl
  | (k1, v1) :: r1, (k2, v2) :: r2, h => by
      have h' : ((k1 == k2 && jeq v1 v2) && jeqFields r1 r2) = true := by simpa [jeqFields] using h
      have h1 : k1 = k2 := by
        have := (Bool.and_eq_true _ _).mp ((Bool.and_eq_true _ _).mp h').1
        exact eq_of_beq this.1
      have h2 : v1 = v2 :=
        jeq_eq v1 v2 ((Bool.and_eq_true _ _).mp ((Bool.and_eq_true _ _).mp h').1).2
      have h3 : r1 = r2 := jeqFields_eq r1 r2 ((Bool.and_eq_true _ _).mp h').2
      simp [h1, h2, h3]
  | [], (_, _) :: _, h => by simp [jeqFields] at h
  | (_, _) :: _, [], h => by simp [jeqFields] at h

theorem jeqItems_eq : (a b : List JValue) → jeqItems a b = true → a = b
  | [], [], _ => rfl
  | v1 :: r1, v2 :: r2, h => by
      have h' : (jeq v1 v2 && jeqItems r1 r2) = true := by simpa [jeqItems] using h
      have h1 : v1 = v2 := jeq_eq v1 v2 ((Bool.and_eq_true _ _).mp h').1
      have h2 : r1 = r2 := jeqItems_eq r1 r2 ((Bool.and_eq_true _ _).mp h').2
      simp [h1, h2]
  | [], _ :: _, h => by simp [jeqItems] at h
  | _ :: _, [], h => by simp [jeqItems] at h
end

instance : BEq JValue := ⟨jeq⟩

instance : LawfulBEq JValue where
  eq_of_beq h := jeq_eq _ _ h
  rfl := jeq_refl _

instance : DecidableEq JValue := fun a b =>
  decidable_of_iff (jeq a b = true) ⟨jeq_eq a b, fun h => h ▸ jeq_refl a⟩

/-- `v.get k`: Python `dict.get(k, None)` on a decoded JSON object,
`none` when the key is absent or the value is not an object. -/
def JValue.get : JValue → String → Option JValue
  | .obj fields, k => (fields.find? (fun p => p.1 == k)).map (fun p => p.2)
  | _, _ => none

/-- Python truthiness of a decoded JSON value (`if x:`). -/
def jTruthy : JValue → Bool
  | .null => false
  | .str s => s ≠ ""
  | .num n => n ≠ 0
  | .obj fields => !fields.isEmpty
  | .arr items => !items.isEmpty

/-- A single-quote character as a string, used by `pyRepr` for quoting. -/
def squote : String := String.singleton (Char.ofNat 39)

mutual
/-- Python `repr` of a decoded JSON value (used inside containers). -/
def pyRepr : JValue → String
  | .null => "None"
  | .str s => squote ++ s ++ squote
  | .num n => toString n
  | .obj fields => "\x7b" ++ pyReprFields fields ++ "\x7d"
  | .arr items => "[" ++ pyReprItems items ++ "]"

/-- Comma-separated `repr` of object fields. -/
def pyReprFields : List (String × JValue) → String
  | [] => ""
  | [(k, v)] => squote ++ k ++ squote ++ ": " ++ pyRepr v
  | (k, v) :: rest => squote ++ k ++ squote ++ ": " ++ pyRepr v ++ ", " ++ pyReprFields rest

/-- Comma-separated `repr` of array items. -/
def pyReprItems : List JValue → String
  | [] => ""
  | [v] => pyRepr v
  | v :: rest => pyRepr v ++ ", " ++ pyReprItems rest
end

/-- Python `str` of a decoded JSON value, as used by f-string interpolation. -/
def pyStr : JValue → String
  | .str s => s
  | v => pyRepr v

instance : Repr JValue := ⟨fun v _ => Std.Format.text (pyRepr v)⟩

section Dicts

variable {κ α : Type} [BEq κ]

/-- `k in d` on a Python dict modelled as an association list. -/
def dictHasKey (d : List (κ × α)) (k : κ) : Bool :=
  d.any (fun p => p.1 == k)

/-- `d.get(k, None)` on a Python dict modelled as an association list. -/
def dictGet (d : List (κ × α)) (k : κ) : Option α :=
  (d.find? (fun p => p.1 == k)).map (fun p => p.2)

/-- `d[k] = v` on a Python dict: overwrite in place when the key exists
(keeping its position), append otherwise. -/
def dictSet (d : List (κ × α)) (k : κ) (v : α) : List (κ × α) :=
  if dictHasKey d k then d.map (fun p => if p.1 == k then (k, v) else p)
  else d ++ [(k, v)]

/-- `d.update(other)` on Python dicts: `d[k] = v` for each pair of `other`
in order. -/
def dictUpdate (d other : List (κ × α)) : List (κ × α) :=
  other.foldl (fun acc p => dictSet acc p.1 p.2) d

end Dicts

/-- HTTP headers: a Python `Dict[str, str]`. -/
abbrev Headers := List (String × String)

/-- A query-parameter dict: a Python `Dict` with string keys and JSON-ish
values (`page_size` is an int, tokens are strings). -/
abbrev Qdict := List (String × JValue)

/-- One issued GET request as seen by the server: the URL, the query
parameters at the moment of the call, and the headers. -/
structure Request where
  url : String
  params : Qdict
  headers : Headers
  deriving Repr, DecidableEq

/-- An HTTP response: its status code and its decoded JSON body
(`none` models a body `resp.json()` fails to decode). -/
structure HttpResp where
  status : Nat
  body : Option JValue
  deriving Repr, DecidableEq

/-- The network state: responses still to be served, in request order, and
the log of requests issued so far. -/
structure Net where
  pending : List HttpResp
  requests : List Request
  deriving Repr, DecidableEq

/-- Issue one request: log it and consume the next pending response.
When no scripted response remains the server answers status `0` with an
undecodable body (the scenarios of interest always script enough
responses). -/
def serve (net : Net) (req : Request) : HttpResp × Net :=
  match net.pending with
  | [] => (⟨0, none⟩, ⟨[], net.requests ++ [req]⟩)
  | r :: rest => (r, ⟨rest, net.requests ++ [req]⟩)

/-- The exception message raised by both `do_get` variants when neither an
auth mapping nor an `Authorization` header is supplied. -/
def authMissingMsg : String := "Authorization header missing from GET request."

/-- Python truthiness of the `auth` argument (`if auth:`): not `None` and
not an empty dict. -/
def authTruthy : Option Headers → Bool
  | none => false
  | some a => !a.isEmpty

/-- The auth-header step shared by both `do_get` variants:
`if auth: headers.update(auth)` /
`elif "Authorization" not in headers: raise Exception(...)`. -/
def do_getAuthStep (auth : Option Headers) (headers : Headers) : Except String Headers :=
  if authTruthy auth then .ok (dictUpdate headers (auth.getD []))
  else if dictHasKey headers "Authorization" then .ok headers
  else .error authMissingMsg

/-- The value of a `do_get` call from `app.py`: the returned page list (or
the propagated exception), together with the final state of the
caller-visible mutable `query` and `headers` dicts and of the network. -/
structure GetResult where
  ret : Except String (List JValue)
  query : Qdict
  headers : Headers
  net : Net
  deriving Repr

/-- The body of the `app.py` `do_get` after the auth-header step.  `fuel`
bounds the recursion depth; the wrapper `do_get` passes the number of
scripted responses, which the recursion can never exceed because each
frame consumes one response before recursing.  The recursive call goes
back through `do_getAuthStep` with `auth=None`, exactly as the source
re-enters `do_get(url=url, query=query, headers=headers)`. -/
def do_getCore (url : String) : Nat → Qdict → Headers → Option JValue → Net → GetResult
  | fuel, query, headers, next_page, net =>
    let query := match next_page with
      | some t => if jTruthy t then dictSet query "next_page_token" t else query
      | none => query
    let (resp, net) := serve net ⟨url, query, headers⟩
    if resp.status ≠ 200 then ⟨.ok [], query, headers, net⟩
    else match resp.body with
      | none => ⟨.ok [], query, headers, net⟩
      | some page =>
        match page.get "next_page_token" with
        | some t =>
          if jTruthy t then
            let query := dictSet query "next_page_token" t
            match fuel with
            | 0 => ⟨.ok [page], query, headers, net⟩
            | fuel + 1 =>
              match do_getAuthStep none headers with
              | .error e => ⟨.error e, query, headers, net⟩
              | .ok headers2 =>
                let r := do_getCore url fuel query headers2 none net
                match r.ret with
                | .error e => ⟨.error e, r.query, r.headers, r.net⟩
                | .ok rest => ⟨.ok (page :: rest), r.query, r.headers, r.net⟩
          else ⟨.ok [page], query, headers, net⟩
        | none => ⟨.ok [page], query, headers, net⟩

/-- The `app.py` `do_get` with an explicit recursion bound. -/
def do_getFuel (url : String) (fuel : Nat) (auth : Option Headers) (query : Qdict)
    (headers : Headers) (next_page : Option JValue) (net : Net) : GetResult :=
  match do_getAuthStep auth headers with
  | .error e => ⟨.error e, query, headers, net⟩
  | .ok headers2 => do_getCore url fuel query headers2 next_page net

/-- The `app.py` `do_get`: the recursion bound is the number of scripted
responses, which the recursion depth can never exceed. -/
def do_get (url : String) (auth : Option Headers) (query : Qdict)
    (headers : Headers) (next_page : Option JValue) (net : Net) : GetResult :=
  do_getFuel url net.pending.length auth query headers next_page net

/-- The value of a `do_get` call from `api.py`: the return value is
`none` when the Python function returns `None` (the value of
`results.extend(...)`), and the final state of the mutable `headers`
dict and of the network. -/
structure ApiGetResult where
  ret : Except String (Option (List JValue))
  headers : Headers
  net : Net
  deriving Repr

/-- The body of the `api.py` `do_get` after the auth-header step.  The query
is a literal string; the recursive call strips the last `&`-segment of it
(`"".join(query.split('&')[:-1])`) and passes the token via `next_page`.
There is no decode guard (`resp.json()` may raise), and the recursive
branch ends in `return results.extend(...)`, which returns `None`, so a
parent frame that receives `None` from its recursive call raises
`TypeError` when extending with it. -/
def api_do_getCore (url : String) : Nat → String → Headers → Option JValue → Net → ApiGetResult
  | fuel, query, headers, next_page, net =>
    let query := match next_page with
      | some t => if jTruthy t then query ++ "&next_page_token=" ++ pyStr t else query
      | none => query
    let (resp, net) := serve net ⟨url ++ query, [], headers⟩
    if resp.status ≠ 200 then ⟨.ok (some []), headers, net⟩
    else match resp.body with
      | none => ⟨.error "JSONDecodeError", headers, net⟩
      | some page =>
        match page.get "next_page_token" with
        | some t =>
          if jTruthy t then
            match fuel with
            | 0 => ⟨.ok (some [page]), headers, net⟩
            | fuel + 1 =>
              match do_getAuthStep none headers with
              | .error e => ⟨.error e, headers, net⟩
              | .ok headers2 =>
                let r := api_do_getCore url fuel (String.join ((query.splitOn "&").dropLast))
                  headers2 (some t) net
                match r.ret with
                | .error e => ⟨.error e, r.headers, r.net⟩
                | .ok none => ⟨.error "TypeError: NoneType object is not iterable", r.headers, r.net⟩
                | .ok (some _) => ⟨.ok none, r.headers, r.net⟩
          else ⟨.ok (some [page]), headers, net⟩
        | none => ⟨.ok (some [page]), headers, net⟩

/-- The `api.py` `do_get` with an explicit recursion bound. -/
def api_do_getFuel (url : String) (fuel : Nat) (auth : Option Headers) (query : String)
    (headers : Headers) (next_page : Option JValue) (net : Net) : ApiGetResult :=
  match do_getAuthStep auth headers with
  | .error e => ⟨.error e, headers, net⟩
  | .ok headers2 => api_do_getCore url fuel query headers2 next_page net

/-- The `api.py` `do_get`: the recursion bound is the number of scripted
responses, which the recursion depth can never exceed. -/
def api_do_get (url : String) (auth : Option Headers) (query : String)
    (headers : Headers) (next_page : Option JValue) (net : Net) : ApiGetResult :=
  api_do_getFuel url net.pending.length auth query headers next_page net

/-- The POST request issued by either `auth` function: basic-auth
credentials and the form-encoded body
`grant_type=account_credentials&account_id=<id>`. -/
structure AuthPost where
  url : String
  username : String
  password : String
  account_id : String
  data : List (String × String)
  headers : Headers
  deriving Repr, DecidableEq

/-- The form body both `auth` functions send. -/
def authPostData (account_id : String) : List (String × String) :=
  [("grant_type", "account_credentials"), ("account_id", account_id)]

/-- The `app.py` `auth`: issues the token POST and decodes the response.
A `json.JSONDecodeError` is caught and turned into `(None, None)`;
otherwise the function returns `data.get("access_token")` and
`data.get("expires_in")`.  The HTTP status is never inspected. -/
def app_auth (url username password account_id : String) (headers : Headers)
    (resp : HttpResp) : AuthPost × (Option JValue × Option JValue) :=
  (⟨url, username, password, account_id, authPostData account_id, headers⟩,
   match resp.body with
   | none => (none, none)
   | some data => (data.get "access_token", data.get "expires_in"))

/-- The `api.py` `auth`: same POST, but `resp.json()` is not guarded, so an
undecodable body raises `json.JSONDecodeError` to the caller. -/
def api_auth (url username password account_id : String) (headers : Headers)
    (resp : HttpResp) : AuthPost × Except String (Option JValue × Option JValue) :=
  (⟨url, username, password, account_id, authPostData account_id, headers⟩,
   match resp.body with
   | none => .error "JSONDecodeError"
   | some data => .ok (data.get "access_token", data.get "expires_in"))

/-- The records a page contributes during flattening:
`response.get(<key>, [])`, the empty list when the key is absent. -/
def pageRecords (key : String) (response : JValue) : List JValue :=
  match response.get key with
  | some (.arr items) => items
  | _ => []

/-- Flatten a list of pages into one record list, as the driver loop
`for response in ...: list.extend(response.get(<key>, []))` loop does. -/
def flattenPages (key : String) (responses : List JValue) : List JValue :=
  responses.foldl (fun acc r => acc ++ pageRecords key r) []

/-- Python `v[k]`: like `JValue.get` but a missing key raises `KeyError`. -/
def jIndex (v : JValue) (k : String) : Except String JValue :=
  match v.get k with
  | some x => .ok x
  | none => .error ("KeyError: " ++ k)

/-- The four phone-number maps the driver accumulates.  Python dict keys
here are arbitrary decoded values, so the maps are `JValue`-keyed. -/
structure ExtractState where
  all_phone_numbers : List (JValue × JValue)
  unassigned_phone_numbers : List (JValue × JValue)
  user_phone_numbers : List (JValue × JValue)
  user_extensions : List (JValue × JValue)
  deriving Repr, DecidableEq

/-- One iteration of the driver extraction loop over a phone-number
record (`app.py`, the `for phone_number in phone_numbers_list` loop). -/
def extractStep (st : ExtractState) (phone_number : JValue) : Except String ExtractState :=
  match jIndex phone_number "number", jIndex phone_number "id" with
  | .ok number, .ok id =>
    let st := { st with all_phone_numbers := dictSet st.all_phone_numbers number id }
    match phone_number.get "assignee" with
    | some assignee =>
      match jIndex assignee "id" with
      | .ok assignee_id =>
        let st := { st with
          user_phone_numbers := dictSet st.user_phone_numbers assignee_id number }
        let ext := (assignee.get "extension_number").getD .null
        if jTruthy ext then
          .ok { st with user_extensions := dictSet st.user_extensions assignee_id ext }
        else .ok st
      | .error e => .error e
    | none =>
      .ok { st with
        unassigned_phone_numbers := dictSet st.unassigned_phone_numbers number id }
  | _, .error e => .error e
  | .error e, _ => .error e

/-- The driver extraction loop over the whole flattened record list. -/
def extractAll : List JValue → ExtractState → Except String ExtractState
  | [], st => .ok st
  | pn :: rest, st =>
    match extractStep st pn with
    | .error e => .error e
    | .ok st2 => extractAll rest st2

/-- One iteration of the driver loop `user_emails[user["id"]] = user["email"]`
loop. -/
def userEmailStep (user_emails : List (JValue × JValue)) (user : JValue) :
    Except String (List (JValue × JValue)) :=
  match jIndex user "email", jIndex user "id" with
  | .ok email, .ok id => .ok (dictSet user_emails id email)
  | .error e, _ => .error e
  | _, .error e => .error e

/-- The driver user-email loop over the whole flattened user list. -/
def userEmailsAll : List JValue → List (JValue × JValue) → Except String (List (JValue × JValue))
  | [], m => .ok m
  | u :: rest, m =>
    match userEmailStep m u with
    | .error e => .error e
    | .ok m2 => userEmailsAll rest m2

/-- Python truthiness of the token returned by `auth`
(the driver check `if not t_token:`). -/
def tokenTruthy : Option JValue → Bool
  | none => false
  | some v => jTruthy v

/-- The outcome of a whole run of the `app.py` `__main__` block: the final
status and the list of output files written, in write order.  Nothing is
written on any propagated exception, because all five writes come after
authentication, both fetches and both extraction loops. -/
structure DriverResult where
  ret : Except String Unit
  filesWritten : List String
  deriving Repr

/-- The headers default of the `app.py` `auth`. -/
def appAuthDefaultHeaders : Headers :=
  [("Content-Type", "application/x-www-form-urlencoded")]

/-- `ZOOM_ENDPOINTS["USERS"]["GET_ALL"]["PATH"]` in `app.py`. -/
def usersPath : String := "/phone/users"

/-- `ZOOM_ENDPOINTS["PHONES"]["GET_ALL"]["PATH"]` in `app.py`. -/
def phonesPath : String := "/phone/numbers"

/-- The five output files of `app.py`, in the order they are opened. -/
def outputFiles : List String :=
  ["./user_phone_numbers.json", "./all_phone_numbers.json",
   "./user_extensions.json", "./unassigned_phone_numbers.json",
   "./user_emails.json"]

/-- The `app.py` `__main__` block.  Configuration values are parameters
(they come from `.env`); `authResp` is the response of the token endpoint and
`usersNet` / `phonesNet` script the two paginated fetches.  Both `do_get`
calls omit the `headers` argument, so they share one mutable default dict:
the second call receives the dict the first call mutated
(`r1.headers`). -/
def mainRun (authUrl apiUrl clientId clientSecret accountId : String)
    (authResp : HttpResp) (usersNet phonesNet : Net) : DriverResult :=
  let (_post, tpair) :=
    app_auth authUrl clientId clientSecret accountId appAuthDefaultHeaders authResp
  let t_token := tpair.1
  if !tokenTruthy t_token then ⟨.error "Unable to authenticate to Zoom.", []⟩
  else
    let authHdr : Headers := [("Authorization", "Bearer " ++ pyStr (t_token.getD .null))]
    let r1 := do_get (apiUrl ++ usersPath) (some authHdr)
      [("page_size", .num 100), ("status", .str "activate")] [] none usersNet
    match r1.ret with
    | .error e => ⟨.error e, []⟩
    | .ok all_user_responses =>
      let users_list := flattenPages "users" all_user_responses
      match userEmailsAll users_list [] with
      | .error e => ⟨.error e, []⟩
      | .ok _user_emails =>
        let r2 := do_get (apiUrl ++ phonesPath) (some authHdr)
          [("page_size", .num 100), ("type", .str "all")] r1.headers none phonesNet
        match r2.ret with
        | .error e => ⟨.error e, []⟩
        | .ok all_phone_responses =>
          let phone_numbers_list := flattenPages "phone_numbers" all_phone_responses
          match extractAll phone_numbers_list ⟨[], [], [], []⟩ with
          | .error e => ⟨.error e, []⟩
          | .ok _st => ⟨.ok (), outputFiles⟩


/-! ### Dictionary lemmas -/

section DictLemmas

variable {κ α : Type} [BEq κ] [LawfulBEq κ]

omit [LawfulBEq κ] in
theorem dictHasKey_isEmpty_false {d : List (κ × α)} {k : κ}
    (h : dictHasKey d k = true) : d.isEmpty = false := by
  cases d <;> simp_all [dictHasKey]

omit [LawfulBEq κ] in
theorem hasKey_false_forall {d : List (κ × α)} {k : κ}
    (h : dictHasKey d k = false) : ∀ p ∈ d, (p.1 == k) = false := by
  intro p hp
  rw [dictHasKey] at h
  exact Bool.eq_false_iff.mpr (List.any_eq_false.mp h p hp)

omit [LawfulBEq κ] in
theorem find_eq_none_of_hasKey_false (d : List (κ × α)) (k : κ)
    (h : dictHasKey d k = false) : d.find? (fun p => p.1 == k) = none := by
  induction d with
  | nil => rfl
  | cons p rest ih =>
    rw [dictHasKey, List.any_cons, Bool.or_eq_false_iff] at h
    rw [List.find?_cons, h.1]
    exact ih h.2

theorem find_map_replace (d : List (κ × α)) (k : κ) (v : α)
    (h : dictHasKey d k = true) :
    (d.map (fun p => if p.1 == k then (k, v) else p)).find? (fun p => p.1 == k)
      = some (k, v) := by
  induction d with
  | nil => simp [dictHasKey] at h
  | cons p rest ih =>
    rw [List.map_cons, List.find?_cons]
    cases hp : (p.1 == k) with
    | true => simp [hp]
    | false =>
      rw [dictHasKey, List.any_cons, hp, Bool.false_or] at h
      simp only [hp, Bool.false_eq_true, if_false]
      exact ih h

theorem dictGet_dictSet_self (d : List (κ × α)) (k : κ) (v : α) :
    dictGet (dictSet d k v) k = some v := by
  rw [dictGet, dictSet]
  cases hk : dictHasKey d k with
  | true =>
    rw [if_pos rfl, find_map_replace d k v hk]
    rfl
  | false =>
    simp only [Bool.false_eq_true, if_false]
    rw [List.find?_append, find_eq_none_of_hasKey_false d k hk]
    simp

theorem dictSet_key_vals (d : List (κ × α)) (k : κ) (v : α) :
    ∀ p ∈ dictSet d k v, p.1 = k → p.2 = v := by
  intro p hp hpk
  rw [dictSet] at hp
  cases hk : dictHasKey d k with
  | true =>
    rw [hk, if_pos rfl] at hp
    obtain ⟨q, hq, hfq⟩ := List.mem_map.mp hp
    cases hq1 : (q.1 == k) with
    | true =>
      rw [← hfq]
      simp [hq1]
    | false =>
      rw [hq1] at hfq
      simp only [Bool.false_eq_true, if_false] at hfq
      subst hfq
      exact absurd (beq_iff_eq.mpr hpk) (by simp [hq1])
  | false =>
    rw [hk] at hp
    simp only [Bool.false_eq_true, if_false] at hp
    rcases List.mem_append.mp hp with hin | hin
    · have hfalse := hasKey_false_forall hk p hin
      exact absurd (beq_iff_eq.mpr hpk) (by simp [hfalse])
    · simp only [List.mem_singleton] at hin
      rw [hin]

theorem dictHasKey_dictSet_self (d : List (κ × α)) (k : κ) (v : α) :
    dictHasKey (dictSet d k v) k = true := by
  rw [dictSet]
  cases hk : dictHasKey d k with
  | true =>
    rw [if_pos rfl, dictHasKey, List.any_eq_true]
    obtain ⟨p, hp, hpk⟩ := List.any_eq_true.mp hk
    exact ⟨(k, v), List.mem_map.mpr ⟨p, hp, by simp [show (p.1 == k) = true from hpk]⟩, by simp⟩
  | false =>
    simp only [Bool.false_eq_true, if_false]
    rw [dictHasKey, List.any_append]
    simp

theorem dictHasKey_dictSet_mono (d : List (κ × α)) (k k2 : κ) (v : α)
    (h : dictHasKey d k = true) : dictHasKey (dictSet d k2 v) k = true := by
  rw [dictSet]
  cases hk2 : dictHasKey d k2 with
  | true =>
    rw [if_pos rfl, dictHasKey, List.any_eq_true]
    obtain ⟨p, hp, hpk⟩ := List.any_eq_true.mp h
    cases hq : (p.1 == k2) with
    | true =>
      refine ⟨(k2, v), List.mem_map.mpr ⟨p, hp, by simp [hq]⟩, ?_⟩
      have h1 : p.1 = k2 := beq_iff_eq.mp hq
      have h2 : p.1 = k := beq_iff_eq.mp hpk
      simp [← h1, h2]
    | false =>
      exact ⟨p, List.mem_map.mpr ⟨p, hp, by simp [hq]⟩, hpk⟩
  | false =>
    simp only [Bool.false_eq_true, if_false]
    rw [dictHasKey, List.any_append]
    rw [dictHasKey] at h
    simp [h]

theorem dictHasKey_dictUpdate_left (d other : List (κ × α)) (k : κ)
    (h : dictHasKey d k = true) : dictHasKey (dictUpdate d other) k = true := by
  rw [dictUpdate]
  induction other generalizing d with
  | nil => simpa using h
  | cons p rest ih => exact ih _ (dictHasKey_dictSet_mono d k p.1 p.2 h)

theorem dictHasKey_dictUpdate_right (d other : List (κ × α)) (k : κ)
    (h : dictHasKey other k = true) : dictHasKey (dictUpdate d other) k = true := by
  induction other generalizing d with
  | nil => simp [dictHasKey] at h
  | cons p rest ih =>
    cases hp : (p.1 == k) with
    | true =>
      have hk : p.1 = k := beq_iff_eq.mp hp
      have base : dictHasKey (dictSet d p.1 p.2) k = true :=
        hk ▸ dictHasKey_dictSet_self d p.1 p.2
      calc dictHasKey (dictUpdate d (p :: rest)) k
          = dictHasKey (dictUpdate (dictSet d p.1 p.2) rest) k := rfl
        _ = true := dictHasKey_dictUpdate_left _ rest k base
    | false =>
      have hrest : dictHasKey rest k = true := by
        rw [dictHasKey, List.any_cons, hp, Bool.false_or] at h
        exact h
      exact ih (dictSet d p.1 p.2) hrest

end DictLemmas

/-! ### Step lemmas for `do_get` -/

/-- The query dict holds a truthy continuation token. -/
def hasTruthyToken (q : Qdict) : Prop :=
  ∃ t, dictGet q "next_page_token" = some t ∧ jTruthy t = true

/-- The response (if any) fails the `do_get` checks: non-200 status or an
undecodable body.  `none` stands for no scripted response at all, which the
model serves as status 0. -/
def respFails : Option HttpResp → Prop
  | none => True
  | some r => r.status ≠ 200 ∨ r.body = none

theorem do_getAuthStep_some (a h : Headers) (ha : dictHasKey a "Authorization" = true) :
    do_getAuthStep (some a) h = .ok (dictUpdate h a) := by
  simp [do_getAuthStep, authTruthy, dictHasKey_isEmpty_false ha]

theorem do_getAuthStep_none (h : Headers) (hk : dictHasKey h "Authorization" = true) :
    do_getAuthStep none h = .ok h := by
  simp [do_getAuthStep, authTruthy, hk]

theorem do_getAuthStep_missing (auth : Option Headers) (h : Headers)
    (ha : authTruthy auth = false) (hk : dictHasKey h "Authorization" = false) :
    do_getAuthStep auth h = .error authMissingMsg := by
  simp [do_getAuthStep, ha, hk]

theorem do_getCore_nil (url : String) (fuel : Nat) (q : Qdict) (h : Headers)
    (reqs : List Request) :
    do_getCore url fuel q h none ⟨[], reqs⟩ =
      ⟨.ok [], q, h, ⟨[], reqs ++ [⟨url, q, h⟩]⟩⟩ := by
  simp [do_getCore, serve]

theorem do_getCore_fail (url : String) (fuel : Nat) (q : Qdict) (h : Headers)
    (reqs : List Request) (s : Nat) (b : Option JValue) (rest : List HttpResp)
    (hs : s ≠ 200) :
    do_getCore url fuel q h none ⟨⟨s, b⟩ :: rest, reqs⟩ =
      ⟨.ok [], q, h, ⟨rest, reqs ++ [⟨url, q, h⟩]⟩⟩ := by
  simp [do_getCore, serve, hs]

theorem do_getCore_undecodable (url : String) (fuel : Nat) (q : Qdict) (h : Headers)
    (reqs : List Request) (rest : List HttpResp) :
    do_getCore url fuel q h none ⟨⟨200, none⟩ :: rest, reqs⟩ =
      ⟨.ok [], q, h, ⟨rest, reqs ++ [⟨url, q, h⟩]⟩⟩ := by
  simp [do_getCore, serve]

theorem do_getCore_noToken (url : String) (fuel : Nat) (q : Qdict) (h : Headers)
    (reqs : List Request) (rest : List HttpResp) (page : JValue)
    (hp : page.get "next_page_token" = none) :
    do_getCore url fuel q h none ⟨⟨200, some page⟩ :: rest, reqs⟩ =
      ⟨.ok [page], q, h, ⟨rest, reqs ++ [⟨url, q, h⟩]⟩⟩ := by
  simp [do_getCore, serve, hp]

theorem do_getCore_falsyToken (url : String) (fuel : Nat) (q : Qdict) (h : Headers)
    (reqs : List Request) (rest : List HttpResp) (page t : JValue)
    (hp : page.get "next_page_token" = some t) (ht : jTruthy t = false) :
    do_getCore url fuel q h none ⟨⟨200, some page⟩ :: rest, reqs⟩ =
      ⟨.ok [page], q, h, ⟨rest, reqs ++ [⟨url, q, h⟩]⟩⟩ := by
  simp [do_getCore, serve, hp, ht]

theorem do_getCore_zeroCont (url : String) (q : Qdict) (h : Headers)
    (reqs : List Request) (rest : List HttpResp) (page t : JValue)
    (hp : page.get "next_page_token" = some t) (ht : jTruthy t = true) :
    do_getCore url 0 q h none ⟨⟨200, some page⟩ :: rest, reqs⟩ =
      ⟨.ok [page], dictSet q "next_page_token" t, h, ⟨rest, reqs ++ [⟨url, q, h⟩]⟩⟩ := by
  simp [do_getCore, serve, hp, ht]

theorem do_getCore_contNoKey (url : String) (fuel : Nat) (q : Qdict) (h : Headers)
    (reqs : List Request) (rest : List HttpResp) (page t : JValue)
    (hp : page.get "next_page_token" = some t) (ht : jTruthy t = true)
    (hk : dictHasKey h "Authorization" = false) :
    do_getCore url (fuel + 1) q h none ⟨⟨200, some page⟩ :: rest, reqs⟩ =
      ⟨.error authMissingMsg, dictSet q "next_page_token" t, h,
        ⟨rest, reqs ++ [⟨url, q, h⟩]⟩⟩ := by
  simp [do_getCore, serve, hp, ht, do_getAuthStep_missing none h rfl hk]

theorem do_getCore_contToken (url : String) (fuel : Nat) (q : Qdict) (h : Headers)
    (reqs : List Request) (rest : List HttpResp) (page t : JValue)
    (hp : page.get "next_page_token" = some t) (ht : jTruthy t = true)
    (hk : dictHasKey h "Authorization" = true) :
    do_getCore url (fuel + 1) q h none ⟨⟨200, some page⟩ :: rest, reqs⟩ =
      ⟨Except.map (fun l => page :: l)
        (do_getCore url fuel (dictSet q "next_page_token" t) h none
          ⟨rest, reqs ++ [⟨url, q, h⟩]⟩).ret,
       (do_getCore url fuel (dictSet q "next_page_token" t) h none
          ⟨rest, reqs ++ [⟨url, q, h⟩]⟩).query,
       (do_getCore url fuel (dictSet q "next_page_token" t) h none
          ⟨rest, reqs ++ [⟨url, q, h⟩]⟩).headers,
       (do_getCore url fuel (dictSet q "next_page_token" t) h none
          ⟨rest, reqs ++ [⟨url, q, h⟩]⟩).net⟩ := by
  conv_lhs => rw [do_getCore]
  simp only [serve, hp, ht, do_getAuthStep_none h hk, if_true]
  cases hret : (do_getCore url fuel (dictSet q "next_page_token" t) h none
      ⟨rest, reqs ++ [⟨url, q, h⟩]⟩).ret <;>
    simp [hret, Except.map]

/-! ### Invariants of `do_getCore` -/

theorem do_getCore_headers (url : String) (fuel : Nat) :
    ∀ (q : Qdict) (h : Headers) (net : Net),
      (do_getCore url fuel q h none net).headers = h := by
  induction fuel with
  | zero =>
    intro q h net
    obtain ⟨pending, reqs⟩ := net
    match pending with
    | [] => rw [do_getCore_nil]
    | ⟨s, b⟩ :: rest =>
      by_cases hs : s = 200
      · subst hs
        match b with
        | none => rw [do_getCore_undecodable]
        | some page =>
          match hp : page.get "next_page_token" with
          | none => rw [do_getCore_noToken _ _ _ _ _ _ _ hp]
          | some t =>
            cases ht : jTruthy t with
            | false => rw [do_getCore_falsyToken _ _ _ _ _ _ _ _ hp ht]
            | true => rw [do_getCore_zeroCont _ _ _ _ _ _ _ hp ht]
      · rw [do_getCore_fail _ _ _ _ _ _ _ _ hs]
  | succ fuel ih =>
    intro q h net
    obtain ⟨pending, reqs⟩ := net
    match pending with
    | [] => rw [do_getCore_nil]
    | ⟨s, b⟩ :: rest =>
      by_cases hs : s = 200
      · subst hs
        match b with
        | none => rw [do_getCore_undecodable]
        | some page =>
          match hp : page.get "next_page_token" with
          | none => rw [do_getCore_noToken _ _ _ _ _ _ _ hp]
          | some t =>
            cases ht : jTruthy t with
            | false => rw [do_getCore_falsyToken _ _ _ _ _ _ _ _ hp ht]
            | true =>
              cases hk : dictHasKey h "Authorization" with
              | false => rw [do_getCore_contNoKey _ _ _ _ _ _ _ _ hp ht hk]
              | true =>
                rw [do_getCore_contToken _ _ _ _ _ _ _ _ hp ht hk]
                exact ih _ _ _
      · rw [do_getCore_fail _ _ _ _ _ _ _ _ hs]

theorem do_getCore_invariants (url : String) (fuel : Nat) :
    ∀ (q : Qdict) (h : Headers) (net : Net),
      (∃ more, (do_getCore url fuel q h none net).net.requests = net.requests ++ more) ∧
      (hasTruthyToken q → hasTruthyToken (do_getCore url fuel q h none net).query) ∧
      (∀ l, (do_getCore url fuel q h none net).ret = .ok l →
        ∀ p ∈ l.dropLast, ∃ t, p.get "next_page_token" = some t ∧ jTruthy t = true) ∧
      (dictHasKey h "Authorization" = true →
        ∃ l, (do_getCore url fuel q h none net).ret = .ok l) := by
  induction fuel with
  | zero =>
    intro q h net
    obtain ⟨pending, reqs⟩ := net
    match pending with
    | [] =>
      rw [do_getCore_nil]
      exact ⟨⟨_, rfl⟩, fun ht => ht, by intro l hl; injection hl with hl; subst hl; simp,
        fun _ => ⟨_, rfl⟩⟩
    | ⟨s, b⟩ :: rest =>
      by_cases hs : s = 200
      · subst hs
        match b with
        | none =>
          rw [do_getCore_undecodable]
          exact ⟨⟨_, rfl⟩, fun ht => ht, by intro l hl; injection hl with hl; subst hl; simp,
            fun _ => ⟨_, rfl⟩⟩
        | some page =>
          match hp : page.get "next_page_token" with
          | none =>
            rw [do_getCore_noToken _ _ _ _ _ _ _ hp]
            exact ⟨⟨_, rfl⟩, fun ht => ht, by intro l hl; injection hl with hl; subst hl; simp,
              fun _ => ⟨_, rfl⟩⟩
          | some t =>
            cases ht : jTruthy t with
            | false =>
              rw [do_getCore_falsyToken _ _ _ _ _ _ _ _ hp ht]
              exact ⟨⟨_, rfl⟩, fun ht => ht, by intro l hl; injection hl with hl; subst hl; simp,
                fun _ => ⟨_, rfl⟩⟩
            | true =>
              rw [do_getCore_zeroCont _ _ _ _ _ _ _ hp ht]
              exact ⟨⟨_, rfl⟩, fun _ => ⟨t, dictGet_dictSet_self q _ t, ht⟩,
                by intro l hl; injection hl with hl; subst hl; simp,
                fun _ => ⟨_, rfl⟩⟩
      · rw [do_getCore_fail _ _ _ _ _ _ _ _ hs]
        exact ⟨⟨_, rfl⟩, fun ht => ht, by intro l hl; injection hl with hl; subst hl; simp,
          fun _ => ⟨_, rfl⟩⟩
  | succ fuel ih =>
    intro q h net
    obtain ⟨pending, reqs⟩ := net
    match pending with
    | [] =>
      rw [do_getCore_nil]
      exact ⟨⟨_, rfl⟩, fun ht => ht, by intro l hl; injection hl with hl; subst hl; simp,
        fun _ => ⟨_, rfl⟩⟩
    | ⟨s, b⟩ :: rest =>
      by_cases hs : s = 200
      · subst hs
        match b with
        | none =>
          rw [do_getCore_undecodable]
          exact ⟨⟨_, rfl⟩, fun ht => ht, by intro l hl; injection hl with hl; subst hl; simp,
            fun _ => ⟨_, rfl⟩⟩
        | some page =>
          match hp : page.get "next_page_token" with
          | none =>
            rw [do_getCore_noToken _ _ _ _ _ _ _ hp]
            exact ⟨⟨_, rfl⟩, fun ht => ht, by intro l hl; injection hl with hl; subst hl; simp,
              fun _ => ⟨_, rfl⟩⟩
          | some t =>
            cases ht : jTruthy t with
            | false =>
              rw [do_getCore_falsyToken _ _ _ _ _ _ _ _ hp ht]
              exact ⟨⟨_, rfl⟩, fun ht => ht, by intro l hl; injection hl with hl; subst hl; simp,
                fun _ => ⟨_, rfl⟩⟩
            | true =>
              cases hk : dictHasKey h "Authorization" with
              | false =>
                rw [do_getCore_contNoKey _ _ _ _ _ _ _ _ hp ht hk]
                refine ⟨⟨_, rfl⟩, fun _ => ⟨t, dictGet_dictSet_self q _ t, ht⟩, ?_, ?_⟩
                · intro l hl
                  exact absurd hl (by simp)
                · intro hk2
                  simp [hk] at hk2
              | true =>
                rw [do_getCore_contToken _ _ _ _ _ _ _ _ hp ht hk]
                obtain ⟨hmore, htok, hdrop, hok⟩ :=
                  ih (dictSet q "next_page_token" t) h ⟨rest, reqs ++ [⟨url, q, h⟩]⟩
                refine ⟨?_, ?_, ?_, ?_⟩
                · obtain ⟨more, hm⟩ := hmore
                  exact ⟨⟨url, q, h⟩ :: more, by simp [hm]⟩
                · intro _
                  exact htok ⟨t, dictGet_dictSet_self q _ t, ht⟩
                · intro l hl p hpmem
                  cases hret : (do_getCore url fuel (dictSet q "next_page_token" t) h none
                      ⟨rest, reqs ++ [⟨url, q, h⟩]⟩).ret with
                  | error e => rw [hret] at hl; exact absurd hl (by simp [Except.map])
                  | ok lr =>
                    rw [hret] at hl
                    simp only [Except.map] at hl
                    injection hl with hl
                    subst hl
                    match lr, hpmem with
                    | l0 :: lrest, hpmem =>
                      rw [List.dropLast_cons₂] at hpmem
                      rcases List.mem_cons.mp hpmem with rfl | hpmem
                      · exact ⟨t, hp, ht⟩
                      · exact hdrop _ hret p hpmem
                · intro _
                  obtain ⟨lr, hlr⟩ := hok hk
                  exact ⟨page :: lr, by rw [hlr]; rfl⟩
      · rw [do_getCore_fail _ _ _ _ _ _ _ _ hs]
        exact ⟨⟨_, rfl⟩, fun ht => ht, by intro l hl; injection hl with hl; subst hl; simp,
          fun _ => ⟨_, rfl⟩⟩

theorem do_getCore_firstReq (url : String) (fuel : Nat) (q : Qdict) (h : Headers)
    (net : Net) :
    ∃ more, (do_getCore url fuel q h none net).net.requests =
      net.requests ++ ⟨url, q, h⟩ :: more := by
  obtain ⟨pending, reqs⟩ := net
  match pending with
  | [] =>
    rw [do_getCore_nil]
    exact ⟨[], rfl⟩
  | ⟨s, b⟩ :: rest =>
    by_cases hs : s = 200
    · subst hs
      match b with
      | none =>
        rw [do_getCore_undecodable]
        exact ⟨[], rfl⟩
      | some page =>
        match hp : page.get "next_page_token" with
        | none =>
          rw [do_getCore_noToken _ _ _ _ _ _ _ hp]
          exact ⟨[], rfl⟩
        | some t =>
          cases ht : jTruthy t with
          | false =>
            rw [do_getCore_falsyToken _ _ _ _ _ _ _ _ hp ht]
            exact ⟨[], rfl⟩
          | true =>
            match fuel with
            | 0 =>
              rw [do_getCore_zeroCont _ _ _ _ _ _ _ hp ht]
              exact ⟨[], rfl⟩
            | fuel + 1 =>
              cases hk : dictHasKey h "Authorization" with
              | false =>
                rw [do_getCore_contNoKey _ _ _ _ _ _ _ _ hp ht hk]
                exact ⟨[], rfl⟩
              | true =>
                rw [do_getCore_contToken _ _ _ _ _ _ _ _ hp ht hk]
                obtain ⟨⟨more, hm⟩, _, _, _⟩ :=
                  do_getCore_invariants url fuel (dictSet q "next_page_token" t) h
                    ⟨rest, reqs ++ [⟨url, q, h⟩]⟩
                exact ⟨more, by simp [hm]⟩
    · rw [do_getCore_fail _ _ _ _ _ _ _ _ hs]
      exact ⟨[], rfl⟩

theorem do_getCore_empty_iff (url : String) (fuel : Nat) (q : Qdict) (h : Headers)
    (net : Net) (hk : dictHasKey h "Authorization" = true) :
    (do_getCore url fuel q h none net).ret = .ok [] ↔ respFails net.pending.head? := by
  obtain ⟨pending, reqs⟩ := net
  match pending with
  | [] =>
    rw [do_getCore_nil]
    simp [respFails]
  | ⟨s, b⟩ :: rest =>
    by_cases hs : s = 200
    · subst hs
      match b with
      | none =>
        rw [do_getCore_undecodable]
        simp [respFails]
      | some page =>
        match hp : page.get "next_page_token" with
        | none =>
          rw [do_getCore_noToken _ _ _ _ _ _ _ hp]
          simp [respFails]
        | some t =>
          cases ht : jTruthy t with
          | false =>
            rw [do_getCore_falsyToken _ _ _ _ _ _ _ _ hp ht]
            simp [respFails]
          | true =>
            match fuel with
            | 0 =>
              rw [do_getCore_zeroCont _ _ _ _ _ _ _ hp ht]
              simp [respFails]
            | fuel + 1 =>
              rw [do_getCore_contToken _ _ _ _ _ _ _ _ hp ht hk]
              obtain ⟨_, _, _, hok⟩ :=
                do_getCore_invariants url fuel (dictSet q "next_page_token" t) h
                  ⟨rest, reqs ++ [⟨url, q, h⟩]⟩
              obtain ⟨lr, hlr⟩ := hok hk
              rw [hlr]
              simp [Except.map, respFails]
    · rw [do_getCore_fail _ _ _ _ _ _ _ _ hs]
      simp [respFails, hs]

/-! ### Scenario lemmas -/

theorem do_getCore_three_pages (url : String) (fuel : Nat) (q : Qdict) (h : Headers)
    (reqs : List Request) (p1 p2 p3 t1 t2 : JValue)
    (hk : dictHasKey h "Authorization" = true)
    (h1 : p1.get "next_page_token" = some t1) (ht1 : jTruthy t1 = true)
    (h2 : p2.get "next_page_token" = some t2) (ht2 : jTruthy t2 = true)
    (h3 : p3.get "next_page_token" = none) :
    (do_getCore url (fuel + 1 + 1) q h none
      ⟨[⟨200, some p1⟩, ⟨200, some p2⟩, ⟨200, some p3⟩], reqs⟩).ret = .ok [p1, p2, p3] := by
  rw [do_getCore_contToken _ _ _ _ _ _ _ _ h1 ht1 hk]
  rw [do_getCore_contToken _ _ _ _ _ _ _ _ h2 ht2 hk]
  rw [do_getCore_noToken _ _ _ _ _ _ _ h3]
  rfl

theorem do_getCore_fail_second (url : String) (fuel : Nat) (q : Qdict) (h : Headers)
    (reqs : List Request) (p1 t1 : JValue) (s : Nat) (b : Option JValue)
    (rest : List HttpResp)
    (hk : dictHasKey h "Authorization" = true)
    (h1 : p1.get "next_page_token" = some t1) (ht1 : jTruthy t1 = true)
    (hs : s ≠ 200) :
    (do_getCore url (fuel + 1) q h none
      ⟨⟨200, some p1⟩ :: ⟨s, b⟩ :: rest, reqs⟩).ret = .ok [p1] := by
  rw [do_getCore_contToken _ _ _ _ _ _ _ _ h1 ht1 hk]
  rw [do_getCore_fail _ _ _ _ _ _ _ _ hs]
  rfl

/-- **C1.**  Over any 3-page response sequence (pages 1 and 2 carry a truthy
`next_page_token`, page 3 carries none, all three return HTTP 200 with a
decodable body), the `app.py` `do_get` returns exactly the three pages in
request order.  The `api.py` `do_get` on the same kind of sequence instead
raises `TypeError`: its recursive branch `return results.extend(...)`
returns `None`, and the outermost frame then extends with `None`. -/
theorem claim_C1 :
    (∀ (url : String) (a : Headers) (q : Qdict) (h0 : Headers) (reqs : List Request)
       (p1 p2 p3 t1 t2 : JValue),
      dictHasKey a "Authorization" = true →
      p1.get "next_page_token" = some t1 → jTruthy t1 = true →
      p2.get "next_page_token" = some t2 → jTruthy t2 = true →
      p3.get "next_page_token" = none →
      (do_get url (some a) q h0 none
        ⟨[⟨200, some p1⟩, ⟨200, some p2⟩, ⟨200, some p3⟩], reqs⟩).ret
        = .ok [p1, p2, p3]) ∧
    (api_do_get "https://api.zoom.us/v2/phone/numbers"
        (some [("Authorization", "Bearer T")]) "?page_size=100"
        [("Content-Type", "application/json")] none
        ⟨[⟨200, some (.obj [("next_page_token", .str "t1")])⟩,
          ⟨200, some (.obj [("next_page_token", .str "t2")])⟩,
          ⟨200, some (.obj [("phone_numbers", .arr [])])⟩], []⟩).ret
      = .error "TypeError: NoneType object is not iterable" := by
  constructor
  · intro url a q h0 reqs p1 p2 p3 t1 t2 ha h1 ht1 h2 ht2 h3
    have ha' : dictHasKey (dictUpdate h0 a) "Authorization" = true :=
      dictHasKey_dictUpdate_right h0 a _ ha
    simp only [do_get, do_getFuel, do_getAuthStep_some a h0 ha]
    exact do_getCore_three_pages url 1 q (dictUpdate h0 a) reqs p1 p2 p3 t1 t2
      ha' h1 ht1 h2 ht2 h3
  · rfl

/-- Witness for C1: a concrete 3-page run of the `app.py` `do_get`. -/
theorem claim_C1_witness :
    (do_get "https://api.zoom.us/v2/phone/numbers" (some [("Authorization", "Bearer T")])
      [("page_size", JValue.num 100)] [] none
      ⟨[⟨200, some (.obj [("next_page_token", .str "t1")])⟩,
        ⟨200, some (.obj [("next_page_token", .str "t2")])⟩,
        ⟨200, some (.obj [("phone_numbers", .arr [])])⟩], []⟩).ret
      = .ok [.obj [("next_page_token", .str "t1")], .obj [("next_page_token", .str "t2")],
             .obj [("phone_numbers", .arr [])]] :=
  claim_C1.1 _ _ _ _ _ _ _ _ _ _ (by rfl) (by rfl) (by rfl) (by rfl) (by rfl) (by rfl)

/-- **C2.**  When page 1 succeeds with a truthy continuation token and the
second response has a non-200 status, the `app.py` `do_get` returns exactly
`[page 1]` whatever responses follow: the failing frame contributes its own
(empty) local accumulator and the outer frame keeps its pages.  The `api.py`
`do_get` on that scenario instead returns `None` (the value of
`return results.extend(...)`), not a one-page list. -/
theorem claim_C2 :
    (∀ (url : String) (a : Headers) (q : Qdict) (h0 : Headers) (reqs : List Request)
       (p1 t1 : JValue) (s : Nat) (b : Option JValue) (rest : List HttpResp),
      dictHasKey a "Authorization" = true →
      p1.get "next_page_token" = some t1 → jTruthy t1 = true →
      s ≠ 200 →
      (do_get url (some a) q h0 none ⟨⟨200, some p1⟩ :: ⟨s, b⟩ :: rest, reqs⟩).ret
        = .ok [p1]) ∧
    (api_do_get "https://api.zoom.us/v2/phone/numbers"
        (some [("Authorization", "Bearer T")]) "?page_size=100"
        [("Content-Type", "application/json")] none
        ⟨[⟨200, some (.obj [("next_page_token", .str "t1")])⟩,
          ⟨500, some (.obj [("code", .num 500)])⟩], []⟩).ret
      = .ok none := by
  constructor
  · intro url a q h0 reqs p1 t1 s b rest ha h1 ht1 hs
    have ha' : dictHasKey (dictUpdate h0 a) "Authorization" = true :=
      dictHasKey_dictUpdate_right h0 a _ ha
    simp only [do_get, do_getFuel, do_getAuthStep_some a h0 ha]
    exact do_getCore_fail_second url (rest.length + 1) q (dictUpdate h0 a) reqs p1 t1 s b
      rest ha' h1 ht1 hs
  · rfl

/-- Witness for C2: a concrete run where the second response is HTTP 500. -/
theorem claim_C2_witness :
    (do_get "https://api.zoom.us/v2/phone/numbers" (some [("Authorization", "Bearer T")])
      [("page_size", JValue.num 100)] [] none
      ⟨[⟨200, some (.obj [("next_page_token", .str "t1")])⟩,
        ⟨500, some (.obj [("code", .num 500)])⟩], []⟩).ret
      = .ok [.obj [("next_page_token", .str "t1")]] :=
  claim_C2.1 _ _ _ _ _ _ _ _ _ _ (by rfl) (by rfl) (by rfl) (by decide)

/-- **C3.**  At a continuation step of the `app.py` `do_get` (the first page
decodes with a truthy token `t`), the second request sent to the server has
query parameters `dictSet q "next_page_token" t`: looking the token up
yields exactly `t`, and every binding of `"next_page_token"` in those
parameters carries `t`, so no earlier continuation token remains. -/
theorem claim_C3 : ∀ (url : String) (a : Headers) (q : Qdict) (h0 : Headers)
    (reqs : List Request) (rest : List HttpResp) (page t : JValue),
    dictHasKey a "Authorization" = true →
    page.get "next_page_token" = some t → jTruthy t = true →
    ∃ more,
      (do_get url (some a) q h0 none ⟨⟨200, some page⟩ :: rest, reqs⟩).net.requests =
        reqs ++ ⟨url, q, dictUpdate h0 a⟩
          :: ⟨url, dictSet q "next_page_token" t, dictUpdate h0 a⟩ :: more ∧
      dictGet (dictSet q "next_page_token" t) "next_page_token" = some t ∧
      (∀ p ∈ dictSet q "next_page_token" t, p.1 = "next_page_token" → p.2 = t) := by
  intro url a q h0 reqs rest page t ha hp ht
  have ha' : dictHasKey (dictUpdate h0 a) "Authorization" = true :=
    dictHasKey_dictUpdate_right h0 a _ ha
  obtain ⟨more, hm⟩ := do_getCore_firstReq url rest.length (dictSet q "next_page_token" t)
    (dictUpdate h0 a) ⟨rest, reqs ++ [⟨url, q, dictUpdate h0 a⟩]⟩
  refine ⟨more, ?_, dictGet_dictSet_self q _ t, dictSet_key_vals q _ t⟩
  simp only [do_get, do_getFuel, List.length_cons, do_getAuthStep_some a h0 ha]
  rw [do_getCore_contToken _ _ _ _ _ _ _ _ hp ht ha']
  simp [hm]

/-- Witness for C3: a concrete continuation step. -/
theorem claim_C3_witness :
    ∃ more,
      (do_get "u" (some [("Authorization", "Bearer T")]) [("page_size", JValue.num 100)] []
        none ⟨[⟨200, some (.obj [("next_page_token", .str "t1")])⟩, ⟨200, some (.obj [])⟩],
          []⟩).net.requests =
        [] ++ ⟨"u", [("page_size", JValue.num 100)], dictUpdate [] [("Authorization", "Bearer T")]⟩
          :: ⟨"u", dictSet [("page_size", JValue.num 100)] "next_page_token" (.str "t1"),
               dictUpdate [] [("Authorization", "Bearer T")]⟩ :: more ∧
      dictGet (dictSet [("page_size", JValue.num 100)] "next_page_token" (JValue.str "t1"))
        "next_page_token" = some (.str "t1") ∧
      (∀ p ∈ dictSet [("page_size", JValue.num 100)] "next_page_token" (JValue.str "t1"),
        p.1 = "next_page_token" → p.2 = .str "t1") :=
  claim_C3 _ _ _ _ _ _ _ _ (by rfl) (by rfl) (by rfl)

/-- **C4 (amended).**  On an undecodable token-response body, the `app.py`
`auth` returns `(None, None)` without raising, but the `api.py` `auth` has no
guard around `resp.json()` and propagates the decode error, for every
credential set. -/
theorem claim_C4 : ∀ (url username password account_id : String) (headers : Headers)
    (resp : HttpResp), resp.body = none →
    (app_auth url username password account_id headers resp).2 = (none, none) ∧
    (api_auth url username password account_id headers resp).2 = .error "JSONDecodeError" := by
  intro url username password account_id headers resp hb
  obtain ⟨s, b⟩ := resp
  subst hb
  exact ⟨rfl, rfl⟩

/-- Counterexample for C4 as stated: the `api.py` `auth` (one of the two
`auth` functions the claim cites) raises on an undecodable body instead of
returning `(none, none)`. -/
theorem claim_C4_counterexample :
    (api_auth "https://zoom.us/oauth/token" "client" "secret" "acct"
      appAuthDefaultHeaders ⟨200, none⟩).2 = .error "JSONDecodeError" ∧
    ∀ p : Option JValue × Option JValue,
      (api_auth "https://zoom.us/oauth/token" "client" "secret" "acct"
        appAuthDefaultHeaders ⟨200, none⟩).2 ≠ .ok p := by
  exact ⟨rfl, fun p h => by simp [api_auth] at h⟩

/-- Witness for C4: concrete credentials and an undecodable body. -/
theorem claim_C4_witness :
    (app_auth "https://zoom.us/oauth/token" "client" "secret" "acct"
      appAuthDefaultHeaders ⟨400, none⟩).2 = (none, none) ∧
    (api_auth "https://zoom.us/oauth/token" "client" "secret" "acct"
      appAuthDefaultHeaders ⟨400, none⟩).2 = .error "JSONDecodeError" :=
  claim_C4 _ _ _ _ _ _ rfl

/-- **C5.**  Calling `do_get` with a falsy `auth` argument (`None` or an
empty dict) and a headers dict that has no `"Authorization"` key raises the
missing-authorization exception and leaves the whole state — in particular
the request log — untouched: zero network calls are made. -/
theorem claim_C5 : ∀ (url : String) (auth : Option Headers) (query : Qdict)
    (headers : Headers) (next_page : Option JValue) (net : Net),
    authTruthy auth = false → dictHasKey headers "Authorization" = false →
    do_get url auth query headers next_page net =
      ⟨.error authMissingMsg, query, headers, net⟩ := by
  intro url auth query headers next_page net ha hk
  simp [do_get, do_getFuel, do_getAuthStep_missing auth headers ha hk]

/-- Witness for C5: the defaults of the `app.py` `do_get` (no auth, empty
headers) against a server that would have answered. -/
theorem claim_C5_witness :
    do_get "https://api.zoom.us/v2/phone/numbers" none [("page_size", JValue.num 100)] []
      none ⟨[⟨200, some (.obj [])⟩], []⟩ =
      ⟨.error authMissingMsg, [("page_size", JValue.num 100)], [],
        ⟨[⟨200, some (.obj [])⟩], []⟩⟩ :=
  claim_C5 _ _ _ _ _ _ rfl rfl

/-- **C6 (amended).**  The Result Set of the `app.py` `do_get` is empty iff
the first response fails its checks (non-200 status or undecodable body);
a successful first page still contributes a page even when it carries zero
resource records.  Moreover the fetch only continued past a page when that
page carried a truthy continuation marker: every returned page except
possibly the last has one. -/
theorem claim_C6 : ∀ (url : String) (a : Headers) (q : Qdict) (h0 : Headers) (net : Net),
    dictHasKey a "Authorization" = true →
    ((do_get url (some a) q h0 none net).ret = .ok [] ↔ respFails net.pending.head?) ∧
    (∀ l, (do_get url (some a) q h0 none net).ret = .ok l →
      ∀ p ∈ l.dropLast, ∃ t, p.get "next_page_token" = some t ∧ jTruthy t = true) := by
  intro url a q h0 net ha
  have ha' : dictHasKey (dictUpdate h0 a) "Authorization" = true :=
    dictHasKey_dictUpdate_right h0 a _ ha
  simp only [do_get, do_getFuel, do_getAuthStep_some a h0 ha]
  exact ⟨do_getCore_empty_iff url _ q _ net ha',
    (do_getCore_invariants url _ q _ net).2.2.1⟩

/-- Counterexample for C6 as stated: a first response that is HTTP 200,
decodable and carries zero resource records (`phone_numbers` is empty)
still yields a one-page, non-empty Result Set, where the claimed
"empty iff failed or zero resources" would require an empty one. -/
theorem claim_C6_counterexample :
    (do_get "u" (some [("Authorization", "Bearer T")]) [("page_size", JValue.num 100)] []
      none ⟨[⟨200, some (.obj [("phone_numbers", .arr [])])⟩], []⟩).ret
      = .ok [.obj [("phone_numbers", .arr [])]] ∧
    pageRecords "phone_numbers" (.obj [("phone_numbers", .arr [])]) = [] ∧
    (Except.ok [JValue.obj [("phone_numbers", .arr [])]] : Except String (List JValue))
      ≠ .ok [] := by
  refine ⟨rfl, rfl, ?_⟩
  intro h
  simp at h

/-- Witness for C6: a failing first response gives an empty Result Set. -/
theorem claim_C6_witness :
    ((do_get "u" (some [("Authorization", "Bearer T")]) [("page_size", JValue.num 100)] []
      none ⟨[⟨500, none⟩], []⟩).ret = .ok [] ↔ respFails (some ⟨500, none⟩)) :=
  (claim_C6 "u" [("Authorization", "Bearer T")] [("page_size", JValue.num 100)] []
    ⟨[⟨500, none⟩], []⟩ rfl).1

/-- **C7.**  One step of the extraction loop: every record lands in the
all-numbers map as `number → id`; a record with an `assignee` adds
`assignee.id → number` to the user→number map, leaves the unassigned map
untouched and, when `assignee.extension_number` is present and truthy, adds
`assignee.id → extension_number` to the extension map (untouched when the
field is absent); a record without `assignee` adds `number → id` to the
unassigned map and leaves the user→number map untouched. -/
theorem claim_C7 : ∀ (st : ExtractState) (phone_number number id : JValue),
    phone_number.get "number" = some number →
    phone_number.get "id" = some id →
    (phone_number.get "assignee" = none →
      ∃ st', extractStep st phone_number = .ok st' ∧
        dictGet st'.all_phone_numbers number = some id ∧
        dictGet st'.unassigned_phone_numbers number = some id ∧
        st'.user_phone_numbers = st.user_phone_numbers ∧
        st'.user_extensions = st.user_extensions) ∧
    (∀ assignee aid, phone_number.get "assignee" = some assignee →
      assignee.get "id" = some aid →
      ∃ st', extractStep st phone_number = .ok st' ∧
        dictGet st'.all_phone_numbers number = some id ∧
        dictGet st'.user_phone_numbers aid = some number ∧
        st'.unassigned_phone_numbers = st.unassigned_phone_numbers ∧
        (∀ ext, assignee.get "extension_number" = some ext → jTruthy ext = true →
          dictGet st'.user_extensions aid = some ext) ∧
        (assignee.get "extension_number" = none →
          st'.user_extensions = st.user_extensions)) := by
  intro st phone_number number id hn hi
  constructor
  · intro hass
    refine ⟨{ st with
        all_phone_numbers := dictSet st.all_phone_numbers number id,
        unassigned_phone_numbers := dictSet st.unassigned_phone_numbers number id },
      ?_, dictGet_dictSet_self _ number id, dictGet_dictSet_self _ number id, rfl, rfl⟩
    simp [extractStep, jIndex, hn, hi, hass]
  · intro assignee aid hass haid
    match hext : assignee.get "extension_number" with
    | none =>
      refine ⟨{ st with
          all_phone_numbers := dictSet st.all_phone_numbers number id,
          user_phone_numbers := dictSet st.user_phone_numbers aid number },
        ?_, dictGet_dictSet_self _ number id, dictGet_dictSet_self _ aid number, rfl,
        fun ext hext2 _ => absurd hext2 (by simp), fun _ => rfl⟩
      simp [extractStep, jIndex, hn, hi, hass, haid, hext, jTruthy]
    | some ext0 =>
      cases htr : jTruthy ext0 with
      | false =>
        refine ⟨{ st with
            all_phone_numbers := dictSet st.all_phone_numbers number id,
            user_phone_numbers := dictSet st.user_phone_numbers aid number },
          ?_, dictGet_dictSet_self _ number id, dictGet_dictSet_self _ aid number, rfl,
          ?_, fun habs => absurd habs (by simp)⟩
        · simp [extractStep, jIndex, hn, hi, hass, haid, hext, htr]
        · intro ext hext2 htr2
          injection hext2 with hext2
          subst hext2
          rw [htr] at htr2
          exact absurd htr2 (by simp)
      | true =>
        refine ⟨{ st with
            all_phone_numbers := dictSet st.all_phone_numbers number id,
            user_phone_numbers := dictSet st.user_phone_numbers aid number,
            user_extensions := dictSet st.user_extensions aid ext0 },
          ?_, dictGet_dictSet_self _ number id, dictGet_dictSet_self _ aid number, rfl,
          ?_, fun habs => absurd habs (by simp)⟩
        · simp [extractStep, jIndex, hn, hi, hass, haid, hext, htr]
        · intro ext hext2 htr2
          injection hext2 with hext2
          subst hext2
          exact dictGet_dictSet_self _ aid ext0

/-- Witness for C7: the sample record of the spec, with and without assignee. -/
theorem claim_C7_witness :
    (∃ st', extractStep ⟨[], [], [], []⟩
        (.obj [("number", .str "+15551230000"), ("id", .str "X1")]) = .ok st' ∧
      dictGet st'.all_phone_numbers (.str "+15551230000") = some (.str "X1") ∧
      dictGet st'.unassigned_phone_numbers (.str "+15551230000") = some (.str "X1") ∧
      st'.user_phone_numbers = ([] : List (JValue × JValue)) ∧
      st'.user_extensions = ([] : List (JValue × JValue))) ∧
    (∃ st', extractStep ⟨[], [], [], []⟩
        (.obj [("number", .str "+15551230000"), ("id", .str "X1"),
          ("assignee", .obj [("id", .str "U1"), ("extension_number", .str "100")])])
        = .ok st' ∧
      dictGet st'.all_phone_numbers (.str "+15551230000") = some (.str "X1") ∧
      dictGet st'.user_phone_numbers (.str "U1") = some (.str "+15551230000") ∧
      st'.unassigned_phone_numbers = ([] : List (JValue × JValue)) ∧
      (∀ ext, (JValue.obj [("id", .str "U1"), ("extension_number", .str "100")]).get
          "extension_number" = some ext → jTruthy ext = true →
        dictGet st'.user_extensions (.str "U1") = some ext) ∧
      ((JValue.obj [("id", .str "U1"), ("extension_number", .str "100")]).get
          "extension_number" = none →
        st'.user_extensions = ([] : List (JValue × JValue)))) :=
  ⟨(claim_C7 ⟨[], [], [], []⟩ _ _ _ (by rfl) (by rfl)).1 (by rfl),
   (claim_C7 ⟨[], [], [], []⟩ _ (.str "+15551230000") (.str "X1") (by rfl) (by rfl)).2
     (.obj [("id", .str "U1"), ("extension_number", .str "100")]) (.str "U1")
     (by rfl) (by rfl)⟩

/-- **C8.**  When authentication yields no usable token (for example the
token response body is undecodable, so `auth` returns `(None, None)`), the
driver raises and writes no output file at all. -/
theorem claim_C8 : ∀ (authUrl apiUrl clientId clientSecret accountId : String)
    (authResp : HttpResp) (usersNet phonesNet : Net),
    tokenTruthy (app_auth authUrl clientId clientSecret accountId
      appAuthDefaultHeaders authResp).2.1 = false →
    mainRun authUrl apiUrl clientId clientSecret accountId authResp usersNet phonesNet =
      ⟨.error "Unable to authenticate to Zoom.", []⟩ := by
  intro authUrl apiUrl clientId clientSecret accountId authResp usersNet phonesNet h
  rw [mainRun]
  simp only [h, Bool.not_false, if_true]

/-- Witness for C8: an undecodable token response halts the run with
nothing written. -/
theorem claim_C8_witness :
    mainRun "https://zoom.us/oauth/token" "https://api.zoom.us/v2" "client" "secret" "acct"
      ⟨200, none⟩ ⟨[], []⟩ ⟨[], []⟩ =
      ⟨.error "Unable to authenticate to Zoom.", []⟩ :=
  claim_C8 _ _ _ _ _ _ _ _ rfl

/-- **C9.**  `do_get` mutates the headers dict it is given: after a call
that supplies an auth mapping containing `"Authorization"`, the dict the
caller shared (returned as `.headers`) contains `"Authorization"`, and a
later `do_get` over that same dict with `auth=None` never raises the
missing-authorization exception — it returns a page list. -/
theorem claim_C9 : ∀ (url1 : String) (a : Headers) (q1 : Qdict) (hs : Headers) (net1 : Net),
    dictHasKey a "Authorization" = true →
    dictHasKey (do_get url1 (some a) q1 hs none net1).headers "Authorization" = true ∧
    (∀ (url2 : String) (q2 : Qdict) (net2 : Net),
      ∃ l, (do_get url2 none q2 (do_get url1 (some a) q1 hs none net1).headers
        none net2).ret = .ok l) := by
  intro url1 a q1 hs net1 ha
  have ha' : dictHasKey (dictUpdate hs a) "Authorization" = true :=
    dictHasKey_dictUpdate_right hs a _ ha
  have hH : (do_get url1 (some a) q1 hs none net1).headers = dictUpdate hs a := by
    simp only [do_get, do_getFuel, do_getAuthStep_some a hs ha]
    exact do_getCore_headers url1 _ q1 _ net1
  constructor
  · rw [hH]
    exact ha'
  · intro url2 q2 net2
    rw [hH]
    simp only [do_get, do_getFuel, do_getAuthStep_none _ ha']
    exact (do_getCore_invariants url2 _ q2 _ net2).2.2.2 ha'

/-- Witness for C9: the shared default headers dict (initially empty) keeps
the bearer header across calls. -/
theorem claim_C9_witness :
    dictHasKey (do_get "u1" (some [("Authorization", "Bearer T")])
      [("page_size", JValue.num 100)] [] none ⟨[], []⟩).headers "Authorization" = true ∧
    ∃ l, (do_get "u2" none [("page_size", JValue.num 100)]
      (do_get "u1" (some [("Authorization", "Bearer T")])
        [("page_size", JValue.num 100)] [] none ⟨[], []⟩).headers
      none ⟨[], []⟩).ret = .ok l :=
  ⟨(claim_C9 "u1" [("Authorization", "Bearer T")] [("page_size", JValue.num 100)] []
      ⟨[], []⟩ rfl).1,
   (claim_C9 "u1" [("Authorization", "Bearer T")] [("page_size", JValue.num 100)] []
      ⟨[], []⟩ rfl).2 "u2" [("page_size", JValue.num 100)] ⟨[], []⟩⟩

/-- **C10.**  `do_get` mutates the caller query dict in place: after a
fetch whose first page carried a truthy continuation token, the dict the
caller shared (returned as `.query`) holds a truthy `"next_page_token"`
entry, and a fresh fetch reusing that dict sends it verbatim as the
parameters of its first request — a stale continuation token. -/
theorem claim_C10 : ∀ (url : String) (a : Headers) (q : Qdict) (h0 : Headers)
    (reqs : List Request) (rest : List HttpResp) (page t : JValue),
    dictHasKey a "Authorization" = true →
    page.get "next_page_token" = some t → jTruthy t = true →
    hasTruthyToken (do_get url (some a) q h0 none ⟨⟨200, some page⟩ :: rest, reqs⟩).query ∧
    (∀ (url2 : String) (h2 : Headers) (net2 : Net), net2.requests = [] →
      ∃ req more,
        (do_get url2 (some a)
          (do_get url (some a) q h0 none ⟨⟨200, some page⟩ :: rest, reqs⟩).query
          h2 none net2).net.requests = req :: more ∧
        req.params = (do_get url (some a) q h0 none ⟨⟨200, some page⟩ :: rest, reqs⟩).query) := by
  intro url a q h0 reqs rest page t ha hp ht
  have ha' : dictHasKey (dictUpdate h0 a) "Authorization" = true :=
    dictHasKey_dictUpdate_right h0 a _ ha
  constructor
  · simp only [do_get, do_getFuel, List.length_cons, do_getAuthStep_some a h0 ha]
    rw [do_getCore_contToken _ _ _ _ _ _ _ _ hp ht ha']
    exact (do_getCore_invariants url _ _ _ _).2.1
      ⟨t, dictGet_dictSet_self q _ t, ht⟩
  · intro url2 h2 net2 hreq
    obtain ⟨more, hm⟩ := do_getCore_firstReq url2 net2.pending.length
      (do_get url (some a) q h0 none ⟨⟨200, some page⟩ :: rest, reqs⟩).query
      (dictUpdate h2 a) net2
    refine ⟨⟨url2, (do_get url (some a) q h0 none ⟨⟨200, some page⟩ :: rest, reqs⟩).query,
      dictUpdate h2 a⟩, more, ?_, rfl⟩
    conv_lhs => rw [do_get, do_getFuel, do_getAuthStep_some a h2 ha]
    rw [hm, hreq]
    rfl

/-- Witness for C10: reusing the query dict after a two-page fetch. -/
theorem claim_C10_witness :
    hasTruthyToken (do_get "u" (some [("Authorization", "Bearer T")])
      [("page_size", JValue.num 100)] [] none
      ⟨[⟨200, some (.obj [("next_page_token", .str "t1")])⟩, ⟨200, some (.obj [])⟩],
        []⟩).query ∧
    ∃ req more,
      (do_get "u2" (some [("Authorization", "Bearer T")])
        (do_get "u" (some [("Authorization", "Bearer T")])
          [("page_size", JValue.num 100)] [] none
          ⟨[⟨200, some (.obj [("next_page_token", .str "t1")])⟩, ⟨200, some (.obj [])⟩],
            []⟩).query
        [] none ⟨[⟨200, some (.obj [])⟩], []⟩).net.requests = req :: more ∧
      req.params = (do_get "u" (some [("Authorization", "Bearer T")])
        [("page_size", JValue.num 100)] [] none
        ⟨[⟨200, some (.obj [("next_page_token", .str "t1")])⟩, ⟨200, some (.obj [])⟩],
          []⟩).query :=
  ⟨(claim_C10 "u" [("Authorization", "Bearer T")] [("page_size", JValue.num 100)] [] []
      [⟨200, some (.obj [])⟩] (.obj [("next_page_token", .str "t1")]) (.str "t1")
      rfl rfl rfl).1,
   (claim_C10 "u" [("Authorization", "Bearer T")] [("page_size", JValue.num 100)] [] []
      [⟨200, some (.obj [])⟩] (.obj [("next_page_token", .str "t1")]) (.str "t1")
      rfl rfl rfl).2 "u2" [] ⟨[⟨200, some (.obj [])⟩], []⟩ rfl⟩
